import Mathlib

/-!
Shallow embedding of the adaptive brute-force detection and mitigation engine
implemented by the class `AdvancedSSHDefender` in `src/problem-4/level-2.py`.

Modelling conventions:
* Instants and durations (`datetime` / `timedelta(minutes=...)`) are integers
  counted in minutes; `datetime.now()` becomes an explicit `now : Int` argument.
* Python dicts keyed by strings become association lists `List (String × α)`
  with insertion-order semantics (`alookup`, `setEntry`), matching dict
  iteration order.  Python sets of strings become duplicate-free lists built by
  `addUnique`.
* Side effects that leave the engine (firewall commands, Slack/email delivery,
  audit-log writes) are modelled as emitted `Decision` values; file formats and
  platforms are out of scope exactly as the functions delegate them.
* The Python standard-library calls `ipaddress.ip_address` / `ip_network`
  (third-party to this repository) are modelled for the dotted-quad IPv4 text
  form, which is the only form the surrounding code produces and the whitelist
  documentation uses: digits-only octets, length at most 3, no leading zeros,
  value at most 255.
-/

namespace SSHDefender

abbrev Time := Int

/-- Association-list lookup, modelling `d[k]` / `k in d` on a Python dict. -/
def alookup {α : Type} (k : String) : List (String × α) → Option α
  | [] => none
  | p :: rest => if p.1 = k then some p.2 else alookup k rest

/-- Association-list update `d[k] = v`: replaces in place if the key exists,
otherwise appends at the end, matching dict insertion-order semantics. -/
def setEntry (k : String) (v : Time) : List (String × Time) → List (String × Time)
  | [] => [(k, v)]
  | p :: rest => if p.1 = k then (k, v) :: rest else p :: setEntry k v rest

/-- Boolean membership test on a list of strings, modelling `x in s`. -/
def containsStr : List String → String → Bool
  | [], _ => false
  | x :: rest, s => if x = s then true else containsStr rest s

/-- Set insertion `s.add(x)` modelled on duplicate-free lists. -/
def addUnique (x : String) (l : List String) : List String :=
  if containsStr l x then l else l ++ [x]

/-- Models `self.failed_attempts[ip].append((timestamp, username))` on the
`defaultdict(list)` of per-source attempt logs. -/
def appendAttempt (ip : String) (e : Time × Option String) :
    List (String × List (Time × Option String)) → List (String × List (Time × Option String))
  | [] => [(ip, [e])]
  | p :: rest => if p.1 = ip then (p.1, p.2 ++ [e]) :: rest else p :: appendAttempt ip e rest

/-- Models `self.user_targets[username].add(ip)` on the `defaultdict(set)` of
per-target-identity source-address clusters. -/
def addTarget (u ip : String) :
    List (String × List String) → List (String × List String)
  | [] => [(u, [ip])]
  | p :: rest => if p.1 = u then (p.1, addUnique ip p.2) :: rest else p :: addTarget u ip rest

/-- Splitting a character list at a separator, modelling Python `str.split(sep)`
restricted to a one-character separator (used for `"."` and `"/"`). -/
def splitOnChar (sep : Char) : List Char → List (List Char)
  | [] => [[]]
  | c :: rest =>
    let r := splitOnChar sep rest
    if c = sep then [] :: r
    else
      match r with
      | [] => [[c]]
      | h :: t => (c :: h) :: t

/-- Numeric value of a digit string, used after an all-digits check. -/
def digitsToNat (l : List Char) : Nat :=
  l.foldl (fun n c => n * 10 + (c.toNat - Char.toNat '0')) 0

/-- Models the per-octet validation of `ipaddress.ip_address` on IPv4 text:
nonempty, digits only, at most three characters, no leading zero, value at
most 255. -/
def parseOctet (l : List Char) : Option Nat :=
  match l with
  | [] => none
  | c :: rest =>
    if (c :: rest).all Char.isDigit = false then none
    else if 3 < (c :: rest).length then none
    else if c = '0' ∧ rest ≠ [] then none
    else
      let n := digitsToNat (c :: rest)
      if n ≤ 255 then some n else none

/-- Models `ipaddress.ip_address` on dotted-quad IPv4 strings, returning the
32-bit value; anything else fails (`ValueError`). -/
def parseIPv4 (s : String) : Option Nat :=
  match splitOnChar '.' s.toList with
  | [a, b, c, d] =>
    match parseOctet a, parseOctet b, parseOctet c, parseOctet d with
    | some a', some b', some c', some d' => some (((a' * 256 + b') * 256 + c') * 256 + d')
    | _, _, _, _ => none
  | _ => none

/-- A parsed CIDR range as held in `self.cidr_whitelist`: the network address
value and the mask length. -/
structure Cidr where
  net : Nat
  bits : Nat
deriving DecidableEq

/-- Models `ip_obj in cidr` for an `ip_network`: the high `bits` bits agree. -/
def inCidr (ip : Nat) (c : Cidr) : Bool :=
  ip / 2 ^ (32 - c.bits) = c.net / 2 ^ (32 - c.bits)

/-- Digit-string parse of the mask length in CIDR notation. -/
def parseMaskLen (l : List Char) : Option Nat :=
  match l with
  | [] => none
  | c :: rest =>
    if (c :: rest).all Char.isDigit = false then none
    else some (digitsToNat (c :: rest))

/-- Models `ipaddress.ip_network` (strict, the default) on `"a.b.c.d/n"`:
the address part must parse, the mask length is at most 32, and all host bits
must be zero, otherwise `ValueError`. -/
def parseCidr (s : String) : Option Cidr :=
  match splitOnChar '/' s.toList with
  | [addr, len] =>
    match parseIPv4 (String.mk addr), parseMaskLen len with
    | some a, some n =>
      if n ≤ 32 ∧ a % 2 ^ (32 - n) = 0 then some ⟨a, n⟩ else none
    | _, _ => none
  | _ => none

/-- Boolean test for `'/' in ip_item`. -/
def hasSlash (s : String) : Bool :=
  s.toList.any (fun c => c = '/')

/-- Decisions emitted to the external enforcement and alert adapters.  They
model, in order: a platform firewall block command issued by `block_ip`; the
per-address Slack and email alerts of the threshold loop in
`process_attempts`; and the distributed-attack Slack and email alerts sent
for each result of `detect_distributed_attacks`. -/
inductive Decision where
  | blockEnforce (ip : String)
  | slackBlockAlert (ip : String) (count : Nat)
  | emailBlockAlert (ip : String) (count : Nat)
  | slackDistAlert (username : String)
  | emailDistAlert (username : String)
deriving DecidableEq

/-- The engine state of `AdvancedSSHDefender`: the configuration attributes and
the three mutable registries `failed_attempts`, `blocked_ips`, `user_targets`
set up in `__init__` (lines 149-161 of `src/problem-4/level-2.py`). -/
structure DefenderState where
  threshold : Nat
  timeWindow : Int
  blockDuration : Int
  usernameThreshold : Nat
  whitelist : List String
  cidrWhitelist : List Cidr
  failedAttempts : List (String × List (Time × Option String))
  blockedIps : List (String × Time)
  userTargets : List (String × List String)
  distributedDetection : Bool
  alertsEnabled : Bool
  slackEnabled : Bool
  emailEnabled : Bool
deriving DecidableEq

/-- Models `is_whitelisted` (lines 330-343): exact membership in
`self.whitelist` is checked first; only then is the address parsed, and a
`ValueError` while parsing skips the CIDR loop and falls through to `False`. -/
def is_whitelisted (st : DefenderState) (ip : String) : Bool :=
  if containsStr st.whitelist ip = true then true
  else
    match parseIPv4 ip with
    | some ipv => st.cidrWhitelist.any (fun c => inCidr ipv c)
    | none => false

/-- Result of a `block_ip` call: whether a new block was applied (the platform
enforcement branch was reached and an entry created) together with the
resulting `blocked_ips` map. -/
structure BlockResult where
  applied : Bool
  blockedIps : List (String × Time)
deriving DecidableEq

/-- Models `block_ip` (lines 540-576): a whitelisted address is refused; an
address already in `blocked_ips` returns early (no mutation, no enforcement);
otherwise the expiry `now + duration` is stored and enforcement proceeds.
`d = none` models the default argument taking `self.block_duration`. -/
def block_ip (st : DefenderState) (now : Time) (ip : String) (d : Option Int) : BlockResult :=
  if is_whitelisted st ip = true then ⟨false, st.blockedIps⟩
  else if (alookup ip st.blockedIps).isSome = true then ⟨false, st.blockedIps⟩
  else ⟨true, setEntry ip (now + d.getD st.blockDuration) st.blockedIps⟩

/-- Models `check_expired_blocks` (lines 782-789): every entry with
`expiry <= now` is removed via `unblock_ip`; the surviving map keeps exactly
the entries with `now < expiry`, in order. -/
def check_expired_blocks (blocked : List (String × Time)) (now : Time) : List (String × Time) :=
  blocked.filter (fun p => decide (now < p.2))

/-- Models `_save_state` (lines 309-328): the snapshot stores each blocked
address with its expiry via `isoformat()`, a lossless round-trip. -/
def snapshotState (blocked : List (String × Time)) : List (String × Time) :=
  blocked

/-- Models `_load_state` (lines 286-307): starting from the empty registry of
`__init__`, each persisted entry is parsed back and kept only when
`expiry > now`. -/
def load_state (snapshot : List (String × Time)) (now : Time) : List (String × Time) :=
  snapshot.filter (fun p => decide (now < p.2))

/-- Models one iteration of the recording loop of `process_attempts`
(lines 1083-1087): an attempt `(timestamp, ip, username)` is appended to
`failed_attempts[ip]` when `timestamp >= window_start`, and a truthy username
also records `ip` into `user_targets[username]`. -/
def recordAttempt (s : DefenderState) (ws : Time) (a : Time × String × Option String) :
    DefenderState :=
  if ws ≤ a.1 then
    match a.2.2 with
    | some u =>
      { s with
        failedAttempts := appendAttempt a.2.1 (a.1, a.2.2) s.failedAttempts
        userTargets := addTarget u a.2.1 s.userTargets }
    | none => { s with failedAttempts := appendAttempt a.2.1 (a.1, a.2.2) s.failedAttempts }
  else s

/-- Models the count used for threshold evaluation (lines 1090-1094): the
length of `[data for data in attempts_data if data[0] >= window_start]`.
Only the lower bound is checked. -/
def recentCount (data : List (Time × Option String)) (ws : Time) : Nat :=
  (data.filter (fun d => decide (ws ≤ d.1))).length

/-- Modelled from the spec: the testable property `CountInWindow(key, now)`
of sections 4.2 and 8 counts stored timestamps `t` with
`now - window <= t <= now`, both boundaries inclusive.  Stated here only to be
compared with `recentCount`, the count the code actually uses. -/
def countInWindowSpec (data : List (Time × Option String)) (now window : Time) : Nat :=
  (data.filter (fun d => decide (now - window ≤ d.1 ∧ d.1 ≤ now))).length

/-- The per-address alert messages of the threshold loop (lines 1105-1110),
guarded by `self.alerts_enabled` and the per-channel flags. -/
def thresholdAlerts (st : DefenderState) (ip : String) (count : Nat) : List Decision :=
  if st.alertsEnabled = true then
    (if st.slackEnabled = true then [Decision.slackBlockAlert ip count] else []) ++
    (if st.emailEnabled = true then [Decision.emailBlockAlert ip count] else [])
  else []

/-- Models one iteration of the threshold loop of `process_attempts`
(lines 1090-1110): when the in-window count reaches the threshold for an
address that is neither blocked nor whitelisted, `block_ip` runs and the
enabled alert channels fire with the attempt count. -/
def thresholdStep (st : DefenderState) (now ws : Time)
    (acc : List (String × Time) × List Decision)
    (entry : String × List (Time × Option String)) :
    List (String × Time) × List Decision :=
  if st.threshold ≤ recentCount entry.2 ws ∧ (alookup entry.1 acc.1).isSome = false ∧
      is_whitelisted st entry.1 = false then
    ((block_ip { st with blockedIps := acc.1 } now entry.1 none).blockedIps,
      acc.2 ++
        (if (block_ip { st with blockedIps := acc.1 } now entry.1 none).applied = true then
          [Decision.blockEnforce entry.1] else []) ++
        thresholdAlerts st entry.1 (recentCount entry.2 ws))
  else acc

/-- The full threshold loop over `self.failed_attempts.items()`. -/
def thresholdBlocks (st : DefenderState) (now ws : Time) :
    List (String × Time) × List Decision :=
  st.failedAttempts.foldl (thresholdStep st now ws) (st.blockedIps, [])

/-- Models `detect_distributed_attacks` (lines 791-833): the username clusters
of `self.user_targets` whose distinct source count reaches
`self.username_threshold`.  The function inspects no timestamps and removes
nothing. -/
def detect_distributed_attacks (st : DefenderState) : List (String × List String) :=
  st.userTargets.filter (fun p => decide (st.usernameThreshold ≤ p.2.length))

/-- Models one iteration of the cluster blocking loop (lines 1126-1128):
`block_ip` runs for a cluster member only when it is not yet blocked and not
whitelisted. -/
def clusterStep (st : DefenderState) (now : Time)
    (acc : List (String × Time) × List Decision) (ip : String) :
    List (String × Time) × List Decision :=
  if (alookup ip acc.1).isSome = false ∧ is_whitelisted st ip = false then
    ((block_ip { st with blockedIps := acc.1 } now ip none).blockedIps,
      acc.2 ++
        (if (block_ip { st with blockedIps := acc.1 } now ip none).applied = true then
          [Decision.blockEnforce ip] else []))
  else acc

/-- The blocking loop over the source addresses of one detected cluster. -/
def blockClusterIps (st : DefenderState) (now : Time)
    (blocked : List (String × Time)) (ips : List String) :
    List (String × Time) × List Decision :=
  ips.foldl (clusterStep st now) (blocked, [])

/-- The per-cluster alert messages for one detected distributed attack
(lines 1118-1123), guarded by `self.alerts_enabled` and the channel flags. -/
def distAlerts (st : DefenderState) (u : String) : List Decision :=
  if st.alertsEnabled = true then
    (if st.slackEnabled = true then [Decision.slackDistAlert u] else []) ++
    (if st.emailEnabled = true then [Decision.emailDistAlert u] else [])
  else []

/-- Models the handling of one detected distributed attack (lines 1116-1128):
the enabled alert channels fire once for the cluster, then every member is
considered for blocking. -/
def distStep (st : DefenderState) (now : Time)
    (acc : List (String × Time) × List Decision) (attack : String × List String) :
    List (String × Time) × List Decision :=
  ((blockClusterIps st now acc.1 attack.2).1,
    acc.2 ++ distAlerts st attack.1 ++ (blockClusterIps st now acc.1 attack.2).2)

/-- Models the distributed-detection phase of `process_attempts`
(lines 1112-1128), guarded by `self.distributed_detection`. -/
def processDistributed (st : DefenderState) (now : Time) :
    List (String × Time) × List Decision :=
  if st.distributedDetection = true then
    (detect_distributed_attacks st).foldl (distStep st now) (st.blockedIps, [])
  else (st.blockedIps, [])

/-- Models `process_attempts` (lines 1063-1128) for one polling cycle, taking
the parsed attempt list as input: expired blocks are swept first; with no
attempts the function returns immediately; otherwise attempts are recorded,
the threshold loop runs, and finally distributed detection runs. -/
def process_attempts (st : DefenderState) (now : Time)
    (attempts : List (Time × String × Option String)) :
    DefenderState × List Decision :=
  let st1 := { st with blockedIps := check_expired_blocks st.blockedIps now }
  if attempts = [] then (st1, [])
  else
    let ws := now - st.timeWindow
    let st2 := attempts.foldl (fun s a => recordAttempt s ws a) st1
    let tb := thresholdBlocks st2 now ws
    let st3 := { st2 with blockedIps := tb.1 }
    let pd := processDistributed st3 now
    ({ st3 with blockedIps := pd.1 }, tb.2 ++ pd.2)

/-- Models one step of the whitelist loading loop of `_load_config`
(lines 196-210): items containing a slash are parsed as CIDR ranges, the
others as single addresses; a `ValueError` skips the item with a warning. -/
def whitelistConfigStep (acc : List String × List Cidr) (item : String) :
    List String × List Cidr :=
  if hasSlash item = true then
    match parseCidr item with
    | some c => (acc.1, acc.2 ++ [c])
    | none => acc
  else
    match parseIPv4 item with
    | some _ => (addUnique item acc.1, acc.2)
    | none => acc

/-- The whitelist section of `_load_config`, folded over the configured item
list starting from the given whitelist state. -/
def loadWhitelistIps (items : List String) (wl : List String) (cidrs : List Cidr) :
    List String × List Cidr :=
  items.foldl whitelistConfigStep (wl, cidrs)

/-- Models the kwargs override loop of `__init__` (lines 168-170) applied to
the `whitelist` keyword built by `main` from `--whitelist` (lines 1285-1286):
`setattr` replaces the attribute wholesale with the argparse list, with no
per-entry parsing or filtering. -/
def applyWhitelistKwarg (st : DefenderState) (ws : List String) : DefenderState :=
  { st with whitelist := ws }

/-- The engine state produced by `__init__` with an empty configuration:
default thresholds and durations, empty registries, distributed detection on,
alerts on but no channel configured. -/
def baseState : DefenderState where
  threshold := 5
  timeWindow := 5
  blockDuration := 1440
  usernameThreshold := 5
  whitelist := []
  cidrWhitelist := []
  failedAttempts := []
  blockedIps := []
  userTargets := []
  distributedDetection := true
  alertsEnabled := true
  slackEnabled := false
  emailEnabled := false

/-! Basic lemmas about the association-list and set helpers. -/

theorem foldl_preserves {α β : Type} {f : α → β → α} {P : α → Prop}
    (hstep : ∀ a b, P a → P (f a b)) : ∀ (l : List β) (a : α), P a → P (l.foldl f a) := by
  intro l
  induction l with
  | nil => intro a h; exact h
  | cons x xs ih => intro a h; exact ih _ (hstep a x h)

theorem alookup_setEntry_self (k : String) (v : Time) :
    ∀ m : List (String × Time), alookup k (setEntry k v m) = some v := by
  intro m
  induction m with
  | nil => simp [setEntry, alookup]
  | cons p rest ih =>
    by_cases h : p.1 = k
    · simp [setEntry, h, alookup]
    · simp [setEntry, h, alookup, ih]

theorem alookup_setEntry_ne {k ip : String} (v : Time) (h : k ≠ ip) :
    ∀ m : List (String × Time), alookup ip (setEntry k v m) = alookup ip m := by
  intro m
  induction m with
  | nil => simp [setEntry, alookup, h]
  | cons p rest ih =>
    by_cases hp : p.1 = k
    · have hpi : ¬ p.1 = ip := by rw [hp]; exact h
      simp [setEntry, hp, alookup, h, hpi]
    · simp [setEntry, hp, alookup, ih]

theorem alookup_eq_none_of_keys {k : String} {α : Type} :
    ∀ m : List (String × α), (∀ r ∈ m, ¬ r.1 = k) → alookup k m = none := by
  intro m
  induction m with
  | nil => intro _; rfl
  | cons q rest ih =>
    intro h
    have hq : ¬ q.1 = k := h q (List.mem_cons_self q rest)
    simp only [alookup, if_neg hq]
    exact ih (fun r hr => h r (List.mem_cons_of_mem q hr))

theorem alookup_filter_none {ip : String} {α : Type} {p : String × α → Bool} :
    ∀ m : List (String × α), alookup ip m = none → alookup ip (m.filter p) = none := by
  intro m
  induction m with
  | nil => intro _; rfl
  | cons q rest ih =>
    intro h
    have hq : ¬ q.1 = ip := by
      intro he
      simp [alookup, he] at h
    have hrest : alookup ip rest = none := by
      simpa [alookup, if_neg hq] using h
    rw [List.filter_cons]
    by_cases hp : p q = true
    · rw [if_pos hp]
      simp only [alookup, if_neg hq]
      exact ih hrest
    · rw [if_neg hp]
      exact ih hrest

theorem containsStr_eq_true_of_mem {s : String} :
    ∀ {l : List String}, s ∈ l → containsStr l s = true := by
  intro l
  induction l with
  | nil => intro h; exact absurd h (List.not_mem_nil s)
  | cons x rest ih =>
    intro h
    rcases List.mem_cons.mp h with h1 | h2
    · simp [containsStr, h1]
    · by_cases hx : x = s
      · simp [containsStr, hx]
      · simp [containsStr, hx, ih h2]

theorem containsStr_append_false {s x : String} :
    ∀ {l : List String}, containsStr l s = false → x ≠ s →
    containsStr (l ++ [x]) s = false := by
  intro l
  induction l with
  | nil => intro _ h2; simp [containsStr, h2]
  | cons y rest ih =>
    intro h1 h2
    by_cases hy : y = s
    · simp [containsStr, hy] at h1
    · have hrest : containsStr rest s = false := by simpa [containsStr, hy] using h1
      simp [containsStr, hy, ih hrest h2]

theorem alookup_appendAttempt_self (ip : String) (e : Time × Option String) :
    ∀ m : List (String × List (Time × Option String)),
      alookup ip (appendAttempt ip e m) = some ((alookup ip m).getD [] ++ [e]) := by
  intro m
  induction m with
  | nil => simp [appendAttempt, alookup]
  | cons p rest ih =>
    by_cases h : p.1 = ip
    · simp [appendAttempt, h, alookup]
    · simp [appendAttempt, h, alookup, ih]

theorem alookup_appendAttempt_ne {k ip : String} (e : Time × Option String) (h : k ≠ ip) :
    ∀ m : List (String × List (Time × Option String)),
      alookup ip (appendAttempt k e m) = alookup ip m := by
  intro m
  induction m with
  | nil => simp [appendAttempt, alookup, h]
  | cons p rest ih =>
    by_cases hp : p.1 = k
    · have hpi : ¬ p.1 = ip := by rw [hp]; exact h
      simp [appendAttempt, hp, alookup, hpi, h]
    · simp [appendAttempt, hp, alookup, ih]

theorem addUnique_extends (x : String) (l : List String) :
    ∃ extra, addUnique x l = l ++ extra := by
  unfold addUnique
  by_cases h : containsStr l x = true
  · rw [if_pos h]
    exact ⟨[], (List.append_nil l).symm⟩
  · rw [if_neg h]
    exact ⟨[x], rfl⟩

theorem alookup_addTarget_self (u ip : String) :
    ∀ m : List (String × List String),
      alookup u (addTarget u ip m) = some (addUnique ip ((alookup u m).getD [])) := by
  intro m
  induction m with
  | nil => simp [addTarget, alookup, addUnique, containsStr]
  | cons p rest ih =>
    by_cases h : p.1 = u
    · simp [addTarget, h, alookup]
    · simp [addTarget, h, alookup, ih]

theorem alookup_addTarget_ne {k u : String} (ip : String) (h : k ≠ u) :
    ∀ m : List (String × List String),
      alookup u (addTarget k ip m) = alookup u m := by
  intro m
  induction m with
  | nil => simp [addTarget, alookup, h]
  | cons p rest ih =>
    by_cases hp : p.1 = k
    · have hpu : ¬ p.1 = u := by rw [hp]; exact h
      simp [addTarget, hp, alookup, hpu, h]
    · simp [addTarget, hp, alookup, ih]

/-! Lemmas about `block_ip` and the recording step. -/

theorem block_ip_cases (st : DefenderState) (now : Time) (k : String) (d : Option Int) :
    (block_ip st now k d).blockedIps = st.blockedIps ∨
    (block_ip st now k d).blockedIps = setEntry k (now + d.getD st.blockDuration) st.blockedIps := by
  unfold block_ip
  by_cases h1 : is_whitelisted st k = true
  · rw [if_pos h1]; exact Or.inl rfl
  · rw [if_neg h1]
    by_cases h2 : (alookup k st.blockedIps).isSome = true
    · rw [if_pos h2]; exact Or.inl rfl
    · rw [if_neg h2]; exact Or.inr rfl

theorem alookup_block_ip_ne {st : DefenderState} {now : Time} {k ip : String} {d : Option Int}
    (h : k ≠ ip) :
    alookup ip (block_ip st now k d).blockedIps = alookup ip st.blockedIps := by
  rcases block_ip_cases st now k d with hc | hc
  · rw [hc]
  · rw [hc, alookup_setEntry_ne _ h]

theorem block_ip_whitelisted {st : DefenderState} {now : Time} {ip : String} {d : Option Int}
    (hw : is_whitelisted st ip = true) :
    block_ip st now ip d = ⟨false, st.blockedIps⟩ := by
  unfold block_ip
  rw [if_pos hw]

theorem recordAttempt_blockedIps (s : DefenderState) (ws : Time)
    (a : Time × String × Option String) :
    (recordAttempt s ws a).blockedIps = s.blockedIps := by
  obtain ⟨t, k, ou⟩ := a
  by_cases hws : ws ≤ t
  · cases ou with
    | some u => simp [recordAttempt, hws]
    | none => simp [recordAttempt, hws]
  · simp [recordAttempt, hws]

theorem recordAttempt_is_whitelisted (s : DefenderState) (ws : Time)
    (a : Time × String × Option String) (ip : String) :
    is_whitelisted (recordAttempt s ws a) ip = is_whitelisted s ip := by
  obtain ⟨t, k, ou⟩ := a
  by_cases hws : ws ≤ t
  · cases ou with
    | some u => simp [recordAttempt, hws, is_whitelisted]
    | none => simp [recordAttempt, hws, is_whitelisted]
  · simp [recordAttempt, hws]

theorem foldl_record_blockedIps (ws : Time) :
    ∀ (l : List (Time × String × Option String)) (s : DefenderState),
      (l.foldl (fun s a => recordAttempt s ws a) s).blockedIps = s.blockedIps := by
  intro l
  induction l with
  | nil => intro s; rfl
  | cons a t ih => intro s; rw [List.foldl_cons, ih, recordAttempt_blockedIps]

theorem foldl_record_is_whitelisted (ws : Time) (ip : String) :
    ∀ (l : List (Time × String × Option String)) (s : DefenderState),
      is_whitelisted (l.foldl (fun s a => recordAttempt s ws a) s) ip = is_whitelisted s ip := by
  intro l
  induction l with
  | nil => intro s; rfl
  | cons a t ih => intro s; rw [List.foldl_cons, ih, recordAttempt_is_whitelisted]

theorem recordAttempt_failed_extends (s : DefenderState) (ws : Time)
    (a : Time × String × Option String) (ip : String) (data : List (Time × Option String))
    (h : alookup ip s.failedAttempts = some data) :
    ∃ r, alookup ip (recordAttempt s ws a).failedAttempts = some (data ++ r) := by
  obtain ⟨t, k, ou⟩ := a
  by_cases hws : ws ≤ t
  · have hfa : (recordAttempt s ws (t, k, ou)).failedAttempts
        = appendAttempt k (t, ou) s.failedAttempts := by
      cases ou with
      | some u => simp [recordAttempt, hws]
      | none => simp [recordAttempt, hws]
    by_cases hk : k = ip
    · subst hk
      refine ⟨[(t, ou)], ?_⟩
      rw [hfa, alookup_appendAttempt_self, h]
      rfl
    · refine ⟨[], ?_⟩
      rw [hfa, alookup_appendAttempt_ne _ hk, h, List.append_nil]
  · refine ⟨[], ?_⟩
    simp [recordAttempt, hws, h]

theorem recordAttempt_targets_extends (s : DefenderState) (ws : Time)
    (a : Time × String × Option String) (u0 : String) (ips : List String)
    (h : alookup u0 s.userTargets = some ips) :
    ∃ r, alookup u0 (recordAttempt s ws a).userTargets = some (ips ++ r) := by
  obtain ⟨t, k, ou⟩ := a
  by_cases hws : ws ≤ t
  · cases ou with
    | some u =>
      have hut : (recordAttempt s ws (t, k, some u)).userTargets
          = addTarget u k s.userTargets := by
        simp [recordAttempt, hws]
      by_cases hu : u = u0
      · subst hu
        obtain ⟨extra, he⟩ := addUnique_extends k ips
        refine ⟨extra, ?_⟩
        rw [hut, alookup_addTarget_self, h]
        simp [he]
      · refine ⟨[], ?_⟩
        rw [hut, alookup_addTarget_ne _ hu, h, List.append_nil]
    | none =>
      refine ⟨[], ?_⟩
      have hut : (recordAttempt s ws (t, k, none)).userTargets = s.userTargets := by
        simp [recordAttempt, hws]
      rw [hut, h, List.append_nil]
  · refine ⟨[], ?_⟩
    simp [recordAttempt, hws, h]

theorem foldl_record_failed_extends (ws : Time) (ip : String) :
    ∀ (l : List (Time × String × Option String)) (s : DefenderState)
      (data : List (Time × Option String)),
      alookup ip s.failedAttempts = some data →
      ∃ r, alookup ip ((l.foldl (fun s a => recordAttempt s ws a) s)).failedAttempts
            = some (data ++ r) := by
  intro l
  induction l with
  | nil =>
    intro s data h
    exact ⟨[], by rw [List.foldl_nil, h, List.append_nil]⟩
  | cons a t ih =>
    intro s data h
    obtain ⟨r0, h0⟩ := recordAttempt_failed_extends s ws a ip data h
    obtain ⟨r1, h1⟩ := ih (recordAttempt s ws a) (data ++ r0) h0
    exact ⟨r0 ++ r1, by rw [List.foldl_cons, h1, List.append_assoc]⟩

theorem foldl_record_targets_extends (ws : Time) (u0 : String) :
    ∀ (l : List (Time × String × Option String)) (s : DefenderState) (ips : List String),
      alookup u0 s.userTargets = some ips →
      ∃ r, alookup u0 ((l.foldl (fun s a => recordAttempt s ws a) s)).userTargets
            = some (ips ++ r) := by
  intro l
  induction l with
  | nil =>
    intro s ips h
    exact ⟨[], by rw [List.foldl_nil, h, List.append_nil]⟩
  | cons a t ih =>
    intro s ips h
    obtain ⟨r0, h0⟩ := recordAttempt_targets_extends s ws a u0 ips h
    obtain ⟨r1, h1⟩ := ih (recordAttempt s ws a) (ips ++ r0) h0
    exact ⟨r0 ++ r1, by rw [List.foldl_cons, h1, List.append_assoc]⟩

/-! Preservation lemmas for the blocking loops. -/

theorem thresholdStep_wl_none (st : DefenderState) (now ws : Time) (ip : String)
    (hw : is_whitelisted st ip = true)
    (acc : List (String × Time) × List Decision)
    (entry : String × List (Time × Option String))
    (h : alookup ip acc.1 = none) :
    alookup ip (thresholdStep st now ws acc entry).1 = none := by
  unfold thresholdStep
  by_cases hc : (st.threshold ≤ recentCount entry.2 ws ∧
      (alookup entry.1 acc.1).isSome = false ∧ is_whitelisted st entry.1 = false)
  · rw [if_pos hc]
    have hne : entry.1 ≠ ip := by
      intro heq
      have h22 := hc.2.2
      rw [heq, hw] at h22
      exact Bool.noConfusion h22
    show alookup ip (block_ip { st with blockedIps := acc.1 } now entry.1 none).blockedIps = none
    rw [alookup_block_ip_ne hne]
    exact h
  · rw [if_neg hc]
    exact h

theorem clusterStep_wl_none (st : DefenderState) (now : Time) (ip : String)
    (hw : is_whitelisted st ip = true)
    (acc : List (String × Time) × List Decision) (x : String)
    (h : alookup ip acc.1 = none) :
    alookup ip (clusterStep st now acc x).1 = none := by
  unfold clusterStep
  by_cases hc : ((alookup x acc.1).isSome = false ∧ is_whitelisted st x = false)
  · rw [if_pos hc]
    have hne : x ≠ ip := by
      intro heq
      have h2 := hc.2
      rw [heq, hw] at h2
      exact Bool.noConfusion h2
    show alookup ip (block_ip { st with blockedIps := acc.1 } now x none).blockedIps = none
    rw [alookup_block_ip_ne hne]
    exact h
  · rw [if_neg hc]
    exact h

theorem distStep_wl_none (st : DefenderState) (now : Time) (ip : String)
    (hw : is_whitelisted st ip = true)
    (acc : List (String × Time) × List Decision) (attack : String × List String)
    (h : alookup ip acc.1 = none) :
    alookup ip (distStep st now acc attack).1 = none := by
  show alookup ip (blockClusterIps st now acc.1 attack.2).1 = none
  unfold blockClusterIps
  exact foldl_preserves (fun a b ha => clusterStep_wl_none st now ip hw a b ha)
    attack.2 (acc.1, []) h

theorem thresholdBlocks_wl_none (st : DefenderState) (now ws : Time) (ip : String)
    (hw : is_whitelisted st ip = true) (h : alookup ip st.blockedIps = none) :
    alookup ip (thresholdBlocks st now ws).1 = none := by
  unfold thresholdBlocks
  exact foldl_preserves (fun a b ha => thresholdStep_wl_none st now ws ip hw a b ha)
    st.failedAttempts (st.blockedIps, []) h

theorem processDistributed_wl_none (st : DefenderState) (now : Time) (ip : String)
    (hw : is_whitelisted st ip = true) (h : alookup ip st.blockedIps = none) :
    alookup ip (processDistributed st now).1 = none := by
  unfold processDistributed
  by_cases hd : st.distributedDetection = true
  · rw [if_pos hd]
    exact foldl_preserves (fun a b ha => distStep_wl_none st now ip hw a b ha)
      (detect_distributed_attacks st) (st.blockedIps, []) h
  · rw [if_neg hd]
    exact h

theorem process_blocked_none_of_whitelisted (st : DefenderState) (now : Time)
    (attempts : List (Time × String × Option String)) (ip : String)
    (hw : is_whitelisted st ip = true) (h0 : alookup ip st.blockedIps = none) :
    alookup ip (process_attempts st now attempts).1.blockedIps = none := by
  simp only [process_attempts]
  by_cases he : attempts = []
  · rw [if_pos he]
    exact alookup_filter_none st.blockedIps h0
  · rw [if_neg he]
    have h1 : alookup ip (check_expired_blocks st.blockedIps now) = none :=
      alookup_filter_none st.blockedIps h0
    have h2 : alookup ip (attempts.foldl (fun s a => recordAttempt s (now - st.timeWindow) a)
        { st with blockedIps := check_expired_blocks st.blockedIps now }).blockedIps = none := by
      rw [foldl_record_blockedIps]
      exact h1
    have hw2 : is_whitelisted (attempts.foldl (fun s a => recordAttempt s (now - st.timeWindow) a)
        { st with blockedIps := check_expired_blocks st.blockedIps now }) ip = true := by
      rw [foldl_record_is_whitelisted]
      exact hw
    have h3 := thresholdBlocks_wl_none _ now (now - st.timeWindow) ip hw2 h2
    exact processDistributed_wl_none _ now ip hw2 h3

/-! Monotonicity and membership lemmas for the cluster blocking loop. -/

theorem clusterStep_mono (st : DefenderState) (now : Time) (ip : String)
    (acc : List (String × Time) × List Decision) (x : String)
    (h : (alookup ip acc.1).isSome = true) :
    (alookup ip (clusterStep st now acc x).1).isSome = true := by
  unfold clusterStep
  by_cases hc : ((alookup x acc.1).isSome = false ∧ is_whitelisted st x = false)
  · rw [if_pos hc]
    have hne : x ≠ ip := by
      intro heq
      have h1 := hc.1
      rw [heq, h] at h1
      exact Bool.noConfusion h1
    show (alookup ip (block_ip { st with blockedIps := acc.1 } now x none).blockedIps).isSome = true
    rw [alookup_block_ip_ne hne]
    exact h
  · rw [if_neg hc]
    exact h

theorem clusterFold_mem_blocked (st : DefenderState) (now : Time) (ip : String)
    (hw : is_whitelisted st ip = false) :
    ∀ (ips : List String) (acc : List (String × Time) × List Decision), ip ∈ ips →
      (alookup ip (ips.foldl (clusterStep st now) acc).1).isSome = true := by
  intro ips
  induction ips with
  | nil => intro acc h; exact absurd h (List.not_mem_nil ip)
  | cons x rest ih =>
    intro acc hmem
    rw [List.foldl_cons]
    by_cases hx : ip ∈ rest
    · exact ih _ hx
    · have hxi : x = ip := by
        rcases List.mem_cons.mp hmem with h1 | h2
        · exact h1.symm
        · exact absurd h2 hx
      subst hxi
      have hstep : (alookup x (clusterStep st now acc x).1).isSome = true := by
        by_cases hb : (alookup x acc.1).isSome = false
        · unfold clusterStep
          rw [if_pos ⟨hb, hw⟩]
          show (alookup x (block_ip { st with blockedIps := acc.1 } now x none).blockedIps).isSome
              = true
          have hw2 : is_whitelisted { st with blockedIps := acc.1 } x = false := hw
          have hb2 : (alookup x ({ st with blockedIps := acc.1 }).blockedIps).isSome = false := hb
          simp [block_ip, hw2, hb2, alookup_setEntry_self]
        · have hb2 : (alookup x acc.1).isSome = true := by
            cases hval : (alookup x acc.1).isSome
            · exact absurd hval hb
            · rfl
          exact clusterStep_mono st now x acc x hb2
      exact foldl_preserves (fun a b ha => clusterStep_mono st now x a b ha) rest _ hstep

theorem distStep_mono (st : DefenderState) (now : Time) (ip : String)
    (acc : List (String × Time) × List Decision) (attack : String × List String)
    (h : (alookup ip acc.1).isSome = true) :
    (alookup ip (distStep st now acc attack).1).isSome = true := by
  show (alookup ip (blockClusterIps st now acc.1 attack.2).1).isSome = true
  unfold blockClusterIps
  exact foldl_preserves (fun a b ha => clusterStep_mono st now ip a b ha)
    attack.2 (acc.1, []) h

theorem distFold_mem_blocked (st : DefenderState) (now : Time) (ip : String)
    (hw : is_whitelisted st ip = false) :
    ∀ (attacks : List (String × List String)) (acc : List (String × Time) × List Decision),
      (∃ p ∈ attacks, ip ∈ p.2) →
      (alookup ip (attacks.foldl (distStep st now) acc).1).isSome = true := by
  intro attacks
  induction attacks with
  | nil =>
    intro acc h
    obtain ⟨p, hp, _⟩ := h
    exact absurd hp (List.not_mem_nil p)
  | cons a rest ih =>
    intro acc h
    rw [List.foldl_cons]
    obtain ⟨p, hp, hip⟩ := h
    rcases List.mem_cons.mp hp with h1 | h2
    · subst h1
      have hstep : (alookup ip (distStep st now acc p).1).isSome = true := by
        show (alookup ip (blockClusterIps st now acc.1 p.2).1).isSome = true
        unfold blockClusterIps
        exact clusterFold_mem_blocked st now ip hw p.2 (acc.1, []) hip
      exact foldl_preserves (fun x b hx => distStep_mono st now ip x b hx) rest _ hstep
    · exact ih _ ⟨p, h2, hip⟩

theorem distStep_decs_mono (st : DefenderState) (now : Time) (d : Decision)
    (acc : List (String × Time) × List Decision) (attack : String × List String)
    (h : d ∈ acc.2) :
    d ∈ (distStep st now acc attack).2 := by
  show d ∈ acc.2 ++ distAlerts st attack.1 ++ (blockClusterIps st now acc.1 attack.2).2
  exact List.mem_append_left _ (List.mem_append_left _ h)

theorem distFold_alert_emitted (st : DefenderState) (now : Time) (u : String)
    (hA : st.alertsEnabled = true) (hS : st.slackEnabled = true) :
    ∀ (attacks : List (String × List String)) (acc : List (String × Time) × List Decision),
      (∃ ips, (u, ips) ∈ attacks) →
      Decision.slackDistAlert u ∈ (attacks.foldl (distStep st now) acc).2 := by
  intro attacks
  induction attacks with
  | nil =>
    rintro acc ⟨ips, h⟩
    exact absurd h (List.not_mem_nil _)
  | cons a rest ih =>
    rintro acc ⟨ips, hmem⟩
    rw [List.foldl_cons]
    rcases List.mem_cons.mp hmem with h1 | h2
    · have hstep : Decision.slackDistAlert u ∈ (distStep st now acc a).2 := by
        show Decision.slackDistAlert u
            ∈ acc.2 ++ distAlerts st a.1 ++ (blockClusterIps st now acc.1 a.2).2
        have ha1 : a.1 = u := by rw [← h1]
        rw [ha1]
        have halert : Decision.slackDistAlert u ∈ distAlerts st u := by
          unfold distAlerts
          rw [if_pos hA, if_pos hS]
          exact List.mem_append_left _ (List.mem_cons_self _ _)
        exact List.mem_append_left _ (List.mem_append_right _ halert)
      exact foldl_preserves (fun x b hx => distStep_decs_mono st now _ x b hx) rest _ hstep
    · exact ih _ ⟨ips, h2⟩

/-! Lemmas about filtering by expiry, window counting, and whitelist loading. -/

theorem filter_keep_all {now : Time} :
    ∀ l : List (String × Time), (∀ p ∈ l, now < p.2) →
      l.filter (fun p => decide (now < p.2)) = l := by
  intro l
  induction l with
  | nil => intro _; rfl
  | cons q rest ih =>
    intro h
    rw [List.filter_cons, if_pos (decide_eq_true (h q (List.mem_cons_self q rest))),
      ih (fun p hp => h p (List.mem_cons_of_mem q hp))]

theorem alookup_filter_expired {now : Time} :
    ∀ l : List (String × Time), (l.map Prod.fst).Nodup →
      ∀ p ∈ l, p.2 ≤ now →
        alookup p.1 (l.filter (fun q => decide (now < q.2))) = none := by
  intro l
  induction l with
  | nil => intro _ p hp; exact absurd hp (List.not_mem_nil p)
  | cons q rest ih =>
    intro hnd p hp hpe
    have hnd0 : (q.1 :: rest.map Prod.fst).Nodup := by
      simpa only [List.map_cons] using hnd
    have hnd' := List.nodup_cons.mp hnd0
    rw [List.filter_cons]
    rcases List.mem_cons.mp hp with h1 | h2
    · subst h1
      rw [decide_eq_false (not_lt.mpr hpe), if_neg Bool.false_ne_true]
      apply alookup_eq_none_of_keys
      intro r hr hrk
      exact hnd'.1 (hrk ▸ List.mem_map_of_mem Prod.fst (List.mem_of_mem_filter hr))
    · have hne : ¬ q.1 = p.1 := by
        intro he
        exact hnd'.1 (he ▸ List.mem_map_of_mem Prod.fst h2)
      by_cases hq : decide (now < q.2) = true
      · rw [if_pos hq]
        simp only [alookup, if_neg hne]
        exact ih hnd'.2 p h2 hpe
      · have hq2 : decide (now < q.2) = false := by
          cases hval : decide (now < q.2)
          · rfl
          · exact absurd hval hq
        rw [hq2, if_neg Bool.false_ne_true]
        exact ih hnd'.2 p h2 hpe

theorem count_filter_eq (now window : Time) :
    ∀ data : List (Time × Option String), (∀ e ∈ data, e.1 ≤ now) →
      (data.filter (fun d => decide (now - window ≤ d.1))).length =
      (data.filter (fun d => decide (now - window ≤ d.1 ∧ d.1 ≤ now))).length := by
  intro data
  induction data with
  | nil => intro _; rfl
  | cons e l ih =>
    intro h
    have he : e.1 ≤ now := h e (List.mem_cons_self e l)
    have hl : ∀ x ∈ l, x.1 ≤ now := fun x hx => h x (List.mem_cons_of_mem e hx)
    rw [List.filter_cons, List.filter_cons]
    by_cases hc : now - window ≤ e.1
    · rw [if_pos (decide_eq_true hc), if_pos (decide_eq_true ⟨hc, he⟩),
        List.length_cons, List.length_cons, ih hl]
    · rw [decide_eq_false hc, decide_eq_false (fun hand => hc hand.1),
        if_neg Bool.false_ne_true, if_neg Bool.false_ne_true]
      exact ih hl

theorem whitelistStep_not_adds {s : String} (hp : parseIPv4 s = none)
    (acc : List String × List Cidr) (item : String)
    (h : containsStr acc.1 s = false) :
    containsStr (whitelistConfigStep acc item).1 s = false := by
  unfold whitelistConfigStep
  by_cases hsl : hasSlash item = true
  · rw [if_pos hsl]
    cases hpc : parseCidr item with
    | none => exact h
    | some c => exact h
  · rw [if_neg hsl]
    cases hpi : parseIPv4 item with
    | none => exact h
    | some v =>
      have hne : item ≠ s := by
        intro he
        rw [he, hp] at hpi
        exact Option.noConfusion hpi
      show containsStr (addUnique item acc.1) s = false
      unfold addUnique
      by_cases hc : containsStr acc.1 item = true
      · rw [if_pos hc]
        exact h
      · rw [if_neg hc]
        exact containsStr_append_false h hne

/-! Claim theorems, counterexamples and witnesses. -/

/-- Engine state with a short block duration, used to exercise re-blocking. -/
def shortBlockState : DefenderState :=
  { baseState with blockDuration := 10 }

/-- C1 counterexample: `block_ip` at time 0 with duration 10 stores expiry 10;
a second `block_ip` for the same address at time 5 returns without
enforcement, but the stored expiry stays 10 instead of being extended to
`max(10, 5 + 10) = 15`, so it is not at least `now + duration` as of the
second call; no trigger count exists to increment. -/
theorem block_extension_counterexample :
    (block_ip { shortBlockState with
        blockedIps := (block_ip shortBlockState 0 "5.6.7.8" none).blockedIps }
      5 "5.6.7.8" none).applied = false ∧
    alookup "5.6.7.8"
      (block_ip { shortBlockState with
          blockedIps := (block_ip shortBlockState 0 "5.6.7.8" none).blockedIps }
        5 "5.6.7.8" none).blockedIps = some 10 ∧
    ¬ ((5 : Int) + 10 ≤ 10) := by
  decide

/-- C1 (amended): a `block_ip` call on an address already present in
`blocked_ips` returns early with no enforcement action and leaves the
registry unchanged: the existing expiry is kept as-is (never extended to
`max(existing, now + duration)`) and no trigger count is tracked. -/
theorem block_already_blocked_keeps_entry (st : DefenderState) (now : Time)
    (ip : String) (d : Option Int)
    (h : (alookup ip st.blockedIps).isSome = true) :
    block_ip st now ip d = ⟨false, st.blockedIps⟩ := by
  unfold block_ip
  by_cases hw : is_whitelisted st ip = true
  · rw [if_pos hw]
  · rw [if_neg hw, if_pos h]

/-- Witness for C1 at a concrete registry holding `9.9.9.9` until 50. -/
theorem block_already_blocked_keeps_entry_witness :
    block_ip { baseState with blockedIps := [("9.9.9.9", (50 : Int))] } 7 "9.9.9.9" none =
      ⟨false, [("9.9.9.9", (50 : Int))]⟩ :=
  block_already_blocked_keeps_entry
    { baseState with blockedIps := [("9.9.9.9", (50 : Int))] } 7 "9.9.9.9" none (by decide)

/-- C2 counterexample: a stored timestamp 100 lies after `now = 0`, yet the
count used for threshold evaluation (filter by `t >= now - window` only,
window 5) counts it, while the spec count with both boundaries excludes it. -/
theorem recent_count_upper_bound_counterexample :
    recentCount [((100 : Int), none)] (0 - 5) = 1 ∧
    countInWindowSpec [((100 : Int), none)] 0 5 = 0 ∧
    ¬ ((100 : Int) ≤ 0) := by
  decide

/-- C2 (amended): the failure count used for threshold evaluation equals the
number of stored timestamps `t` with `now - window <= t`; no upper bound is
applied, so it coincides with the two-sided window count exactly when no
stored timestamp lies after `now`. -/
theorem recent_count_eq_window_count_of_no_future
    (data : List (Time × Option String)) (now window : Time)
    (h : ∀ e ∈ data, e.1 ≤ now) :
    recentCount data (now - window) = countInWindowSpec data now window :=
  count_filter_eq now window data h

/-- Witness for C2 on a two-event log with no future timestamps. -/
theorem recent_count_eq_window_count_of_no_future_witness :
    recentCount [((3 : Int), some "u"), ((-10 : Int), none)] (5 - 5) =
      countInWindowSpec [((3 : Int), some "u"), ((-10 : Int), none)] 5 5 :=
  recent_count_eq_window_count_of_no_future
    [((3 : Int), some "u"), ((-10 : Int), none)] 5 5 (by decide)

/-- C3 counterexample: an event recorded at time 0 for `9.9.9.9` is still in
that key's stored log after a later cycle at time 100 with window 5, although
0 lies before `now - window = 95`; the key is not removed either. -/
theorem window_invariant_counterexample :
    alookup "9.9.9.9"
      (process_attempts
        (process_attempts baseState 0 [((0 : Int), "9.9.9.9", some "root")]).1
        100 [((100 : Int), "8.8.8.8", none)]).1.failedAttempts
      = some [(0, some "root")] ∧
    ((0 : Int) < 100 - 5) := by
  decide

/-- C3 (amended): stored per-key event logs are never evicted: every event
already stored for a key is retained, in order, by any further
`process_attempts` cycle (the window filter is applied only when counting),
and keys are never removed — the code has no idle-key pruning. -/
theorem failed_attempts_retained (st : DefenderState) (now : Time)
    (attempts : List (Time × String × Option String)) (ip : String)
    (data : List (Time × Option String))
    (h : alookup ip st.failedAttempts = some data) :
    ∃ rest, alookup ip (process_attempts st now attempts).1.failedAttempts
      = some (data ++ rest) := by
  simp only [process_attempts]
  by_cases he : attempts = []
  · rw [if_pos he]
    refine ⟨[], ?_⟩
    rw [List.append_nil]
    exact h
  · rw [if_neg he]
    exact foldl_record_failed_extends (now - st.timeWindow) ip attempts
      { st with blockedIps := check_expired_blocks st.blockedIps now } data h

/-- Witness for C3: an existing one-event log for `2.3.4.5` survives a cycle
that records another event for the same address. -/
theorem failed_attempts_retained_witness :
    ∃ rest, alookup "2.3.4.5"
      (process_attempts { baseState with failedAttempts := [("2.3.4.5", [((1 : Int), none)])] }
        2 [((2 : Int), "2.3.4.5", none)]).1.failedAttempts
      = some ([((1 : Int), none)] ++ rest) :=
  failed_attempts_retained
    { baseState with failedAttempts := [("2.3.4.5", [((1 : Int), none)])] }
    2 [((2 : Int), "2.3.4.5", none)] "2.3.4.5" [((1 : Int), none)] (by decide)

/-- C4 (confirmed): `block_ip` on a whitelisted address returns without
applying any block and leaves the registry unchanged, and a whitelisted
address that is not blocked never enters `blocked_ips` during a whole
`process_attempts` cycle, however many failed attempts it accumulates. -/
theorem whitelisted_never_blocked (st : DefenderState) (now : Time) (ip : String)
    (d : Option Int) (attempts : List (Time × String × Option String))
    (hw : is_whitelisted st ip = true) :
    block_ip st now ip d = ⟨false, st.blockedIps⟩ ∧
    (alookup ip st.blockedIps = none →
      alookup ip (process_attempts st now attempts).1.blockedIps = none) := by
  constructor
  · exact block_ip_whitelisted hw
  · intro h0
    exact process_blocked_none_of_whitelisted st now attempts ip hw h0

/-- Witness for C4: `10.0.0.1` is whitelisted and stays unblocked through a
cycle carrying six failed attempts from it. -/
theorem whitelisted_never_blocked_witness :
    block_ip { baseState with whitelist := ["10.0.0.1"] } 0 "10.0.0.1" none =
      ⟨false, []⟩ ∧
    alookup "10.0.0.1"
      (process_attempts { baseState with whitelist := ["10.0.0.1"] } 0
        (List.replicate 6 ((0 : Int), "10.0.0.1", some "root"))).1.blockedIps = none := by
  have h := whitelisted_never_blocked { baseState with whitelist := ["10.0.0.1"] } 0
    "10.0.0.1" none (List.replicate 6 ((0 : Int), "10.0.0.1", some "root")) (by decide)
  exact ⟨h.1, h.2 (by decide)⟩

/-- Engine state whose cluster for `admin` holds five addresses, the first of
which is whitelisted. -/
def wlClusterState : DefenderState :=
  { baseState with
    whitelist := ["1.2.3.4"]
    userTargets := [("admin", ["1.2.3.4", "2.2.2.2", "3.3.3.3", "4.4.4.4", "5.5.5.5"])] }

/-- C5 counterexample: the `admin` cluster is detected (5 sources, threshold
5) and `1.2.3.4` is a member that is not already blocked, yet the cycle
issues no block for it because it is whitelisted, while the other members do
get blocked. -/
theorem cluster_whitelisted_member_counterexample :
    ("admin", ["1.2.3.4", "2.2.2.2", "3.3.3.3", "4.4.4.4", "5.5.5.5"])
        ∈ detect_distributed_attacks wlClusterState ∧
    alookup "1.2.3.4" wlClusterState.blockedIps = none ∧
    alookup "1.2.3.4"
      (process_attempts wlClusterState 0 [((0 : Int), "2.2.2.2", none)]).1.blockedIps = none ∧
    alookup "3.3.3.3"
      (process_attempts wlClusterState 0 [((0 : Int), "2.2.2.2", none)]).1.blockedIps
      = some 1440 := by
  decide

/-- C5 (amended): every member of a detected cluster that is not whitelisted
ends up in the block registry after the distributed-detection phase, with no
condition on that member's own failure count (an address with no recorded
failures at all is still blocked); whitelisted members are skipped. -/
theorem cluster_members_blocked_unless_whitelisted (st : DefenderState) (now : Time)
    (u : String) (ips : List String) (ip : String)
    (hd : st.distributedDetection = true)
    (hmem : (u, ips) ∈ detect_distributed_attacks st)
    (hip : ip ∈ ips)
    (hw : is_whitelisted st ip = false) :
    (alookup ip (processDistributed st now).1).isSome = true := by
  unfold processDistributed
  rw [if_pos hd]
  exact distFold_mem_blocked st now ip hw (detect_distributed_attacks st)
    (st.blockedIps, []) ⟨(u, ips), hmem, hip⟩

/-- Engine state whose cluster for `db` holds five non-whitelisted addresses
with no recorded failures. -/
def dbClusterState : DefenderState :=
  { baseState with
    userTargets := [("db", ["8.8.1.1", "8.8.1.2", "8.8.1.3", "8.8.1.4", "8.8.1.5"])] }

/-- Witness for C5: `8.8.1.1` has no failed attempts recorded at all, yet the
distributed phase blocks it as a member of the detected `db` cluster. -/
theorem cluster_members_blocked_unless_whitelisted_witness :
    (alookup "8.8.1.1" (processDistributed dbClusterState 0).1).isSome = true :=
  cluster_members_blocked_unless_whitelisted dbClusterState 0 "db"
    ["8.8.1.1", "8.8.1.2", "8.8.1.3", "8.8.1.4", "8.8.1.5"] "8.8.1.1"
    (by decide) (by decide) (by decide) (by decide)

/-- Engine state with a ready `admin` cluster and Slack alerting enabled. -/
def alertClusterState : DefenderState :=
  { baseState with
    slackEnabled := true
    userTargets := [("admin", ["2.2.2.2", "3.3.3.3", "4.4.4.4", "5.5.5.5", "6.6.6.6"])] }

/-- C6 counterexample: two consecutive cycles over an unchanged `admin`
cluster membership each emit a distributed-attack alert — the second cycle
re-alerts although no new address joined the cluster. -/
theorem duplicate_alert_counterexample :
    Decision.slackDistAlert "admin"
        ∈ (process_attempts alertClusterState 0 [((0 : Int), "7.7.7.7", none)]).2 ∧
    Decision.slackDistAlert "admin"
        ∈ (process_attempts
            (process_attempts alertClusterState 0 [((0 : Int), "7.7.7.7", none)]).1
            1 [((1 : Int), "7.7.7.7", none)]).2 := by
  decide

/-- C6 (amended): the engine keeps no last-alerted membership signature: in
every cycle whose distributed phase runs with alerting enabled, each cluster
meeting the source threshold emits a distributed alert, independent of any
earlier alerts for the same membership. -/
theorem cluster_alert_emitted_each_cycle (st : DefenderState) (now : Time)
    (u : String) (ips : List String)
    (hd : st.distributedDetection = true)
    (hA : st.alertsEnabled = true) (hS : st.slackEnabled = true)
    (hmem : (u, ips) ∈ detect_distributed_attacks st) :
    Decision.slackDistAlert u ∈ (processDistributed st now).2 := by
  unfold processDistributed
  rw [if_pos hd]
  exact distFold_alert_emitted st now u hA hS (detect_distributed_attacks st)
    (st.blockedIps, []) ⟨ips, hmem⟩

/-- Engine state used as the C6 witness input: a ready `ops` cluster, Slack
alerting enabled, and every member already blocked. -/
def alertedClusterState : DefenderState :=
  { baseState with
    slackEnabled := true
    blockedIps := [("7.1.1.1", 1440), ("7.1.1.2", 1440), ("7.1.1.3", 1440),
      ("7.1.1.4", 1440), ("7.1.1.5", 1440)]
    userTargets := [("ops", ["7.1.1.1", "7.1.1.2", "7.1.1.3", "7.1.1.4", "7.1.1.5"])] }

/-- Witness for C6: the `ops` cluster, all of whose members are already
blocked (so it was necessarily processed before), still emits an alert. -/
theorem cluster_alert_emitted_each_cycle_witness :
    Decision.slackDistAlert "ops" ∈ (processDistributed alertedClusterState 3).2 :=
  cluster_alert_emitted_each_cycle alertedClusterState 3 "ops"
    ["7.1.1.1", "7.1.1.2", "7.1.1.3", "7.1.1.4", "7.1.1.5"]
    (by decide) (by decide) (by decide) (by decide)

/-- C7 counterexample: `1.1.1.1` attacks `admin` once at time 0; a later cycle
at time 100000 — far beyond the 60-minute correlation window — still finds
`1.1.1.1` in the `admin` cluster, which was never pruned. -/
theorem cluster_pruning_counterexample :
    alookup "admin"
      (process_attempts
        (process_attempts baseState 0 [((0 : Int), "1.1.1.1", some "admin")]).1
        100000 [((100000 : Int), "8.8.8.8", some "bob")]).1.userTargets
      = some ["1.1.1.1"] ∧
    ((60 : Int) < 100000) := by
  decide

/-- C7 (amended): cluster membership only grows: a source address recorded
against a target identity is retained by every further `process_attempts`
cycle — the cluster map stores no per-address timestamps, so no window-based
eviction can occur and cluster keys are never removed. -/
theorem user_targets_retained (st : DefenderState) (now : Time)
    (attempts : List (Time × String × Option String)) (u : String) (ips : List String)
    (h : alookup u st.userTargets = some ips) :
    ∃ extra, alookup u (process_attempts st now attempts).1.userTargets
      = some (ips ++ extra) := by
  simp only [process_attempts]
  by_cases he : attempts = []
  · rw [if_pos he]
    refine ⟨[], ?_⟩
    rw [List.append_nil]
    exact h
  · rw [if_neg he]
    exact foldl_record_targets_extends (now - st.timeWindow) u attempts
      { st with blockedIps := check_expired_blocks st.blockedIps now } ips h

/-- Witness for C7: the existing `admin` cluster member survives a cycle that
adds a second member. -/
theorem user_targets_retained_witness :
    ∃ extra, alookup "admin"
      (process_attempts { baseState with userTargets := [("admin", ["6.6.6.6"])] }
        3 [((3 : Int), "7.7.7.7", some "admin")]).1.userTargets
      = some (["6.6.6.6"] ++ extra) :=
  user_targets_retained { baseState with userTargets := [("admin", ["6.6.6.6"])] }
    3 [((3 : Int), "7.7.7.7", some "admin")] "admin" ["6.6.6.6"] (by decide)

/-- C8 (confirmed): restoring the snapshot of a registry with distinct keys
reproduces the registry exactly when no entry has expired at the restore
instant, and every entry whose expiry is at or before the restore instant is
discarded, leaving no entry for its address. -/
theorem restore_filters_expired (blocked : List (String × Time)) (now : Time)
    (hnd : (blocked.map Prod.fst).Nodup) :
    ((∀ p ∈ blocked, now < p.2) → load_state (snapshotState blocked) now = blocked) ∧
    (∀ p ∈ blocked, p.2 ≤ now →
      alookup p.1 (load_state (snapshotState blocked) now) = none) := by
  constructor
  · intro hall
    exact filter_keep_all blocked hall
  · intro p hp hpe
    exact alookup_filter_expired blocked hnd p hp hpe

/-- Witness for C8: a one-entry snapshot with expiry 10 restores unchanged at
time 3 and restores to nothing at time 10. -/
theorem restore_filters_expired_witness :
    load_state (snapshotState [("1.2.3.4", (10 : Int))]) 3 = [("1.2.3.4", (10 : Int))] ∧
    alookup "1.2.3.4" (load_state (snapshotState [("1.2.3.4", (10 : Int))]) 10) = none := by
  constructor
  · exact (restore_filters_expired [("1.2.3.4", (10 : Int))] 3 (by decide)).1 (by decide)
  · exact (restore_filters_expired [("1.2.3.4", (10 : Int))] 10 (by decide)).2
      ("1.2.3.4", (10 : Int)) (by decide) (by decide)

/-- Engine state whose exact whitelist holds a string that is not an IP. -/
def malformedWhitelistState : DefenderState :=
  { baseState with whitelist := ["not-an-ip"] }

/-- C9 counterexample: `"not-an-ip"` does not parse as an IP address, yet the
membership query returns true for a whitelist state holding it verbatim,
because the exact-string check precedes parsing. -/
theorem malformed_exact_entry_counterexample :
    parseIPv4 "not-an-ip" = none ∧
    is_whitelisted malformedWhitelistState "not-an-ip" = true := by
  decide

/-- C9 (amended): a string that does not parse as an IP address and is not
present verbatim among the exact whitelist entries is reported as not
whitelisted, for every whitelist state: the parse failure skips the CIDR loop
and falls through to false. -/
theorem malformed_not_whitelisted_unless_exact (st : DefenderState) (s : String)
    (hp : parseIPv4 s = none) (hm : containsStr st.whitelist s = false) :
    is_whitelisted st s = false := by
  unfold is_whitelisted
  rw [hm, if_neg Bool.false_ne_true, hp]

/-- Witness for C9: the malformed `"999.1.2.3"` is rejected even though a CIDR
range is configured. -/
theorem malformed_not_whitelisted_unless_exact_witness :
    is_whitelisted { baseState with cidrWhitelist := [⟨3232235776, 24⟩] } "999.1.2.3"
      = false :=
  malformed_not_whitelisted_unless_exact
    { baseState with cidrWhitelist := [⟨3232235776, 24⟩] } "999.1.2.3"
    (by decide) (by decide)

/-- C10 (confirmed): the kwargs override installs the `--whitelist` list
wholesale with no per-entry validation, so any of its entries — even one that
parses as no IP and no CIDR — matches later membership queries by exact
string equality; configuration-file loading, in contrast, never retains such
an entry. -/
theorem kwargs_whitelist_unvalidated (st : DefenderState) (ws : List String)
    (s : String) (items : List String)
    (hmem : s ∈ ws) (hp : parseIPv4 s = none) (hs : hasSlash s = false) :
    (applyWhitelistKwarg st ws).whitelist = ws ∧
    is_whitelisted (applyWhitelistKwarg st ws) s = true ∧
    containsStr (loadWhitelistIps items [] []).1 s = false := by
  refine ⟨rfl, ?_, ?_⟩
  · have hc : containsStr (applyWhitelistKwarg st ws).whitelist s = true :=
      containsStr_eq_true_of_mem hmem
    unfold is_whitelisted
    rw [if_pos hc]
  · unfold loadWhitelistIps
    exact foldl_preserves (fun acc item hacc => whitelistStep_not_adds hp acc item hacc)
      items ([], []) rfl

/-- Witness for C10: `"bogus-entry"` supplied via kwargs is retained and
matches, while configuration loading of the same item drops it. -/
theorem kwargs_whitelist_unvalidated_witness :
    (applyWhitelistKwarg baseState ["bogus-entry"]).whitelist = ["bogus-entry"] ∧
    is_whitelisted (applyWhitelistKwarg baseState ["bogus-entry"]) "bogus-entry" = true ∧
    containsStr (loadWhitelistIps ["bogus-entry"] [] []).1 "bogus-entry" = false :=
  kwargs_whitelist_unvalidated baseState ["bogus-entry"] "bogus-entry" ["bogus-entry"]
    (by decide) (by decide) (by decide)

end SSHDefender
